import Mathlib

/-!
Verification of the helix typable-command interpreter
(`src/helix-term/src/commands/typed.rs`) against its specification.

The embedding covers: the prompt-event protocol, the shell-words tokenizer
(modelled from the spec, the tokenizer itself lives in `helix-core` which is
not part of this repository snapshot), the argument/flag parser (likewise
modelled from the spec), arity validation (`ensure_signature`), the
`command_mode` submission dispatcher, the goto-line-number preview handler,
the `:toggle` array branch, and the command registry name/alias table.
-/

namespace Helix

/-- The three prompt phases, from `helix_view::input::PromptEvent`
as used throughout `typed.rs`. -/
inductive PromptEvent where
  | Update
  | Validate
  | Abort
deriving DecidableEq, Repr

/-- `shellwords::ParseMode` as used in the command list: `Parameters`
(structured, flags recognized) or `Literal` (rest of line verbatim). -/
inductive ParseMode where
  | Parameters
  | Literal
deriving DecidableEq, Repr

/-- A declared flag of a command signature (`shellwords::Flag`): long name,
optional short alias, optional value placeholder (`accepts`; flags without
one are boolean switches). The description and completer are omitted, no
claim depends on them. -/
structure Flag where
  long : String
  short : Option String
  accepts : Option String
deriving DecidableEq, Repr

/-- The parser output (`shellwords::Args`): ordered positional arguments and
the matched flags, each with an optional value. -/
structure Args where
  positionals : List String
  flags : List (String × Option String)
deriving DecidableEq, Repr

/-- Modelled from the spec: the tokenizer (`helix_core::shellwords`, not in
this repository snapshot) splits a line on whitespace while honoring
quoting and backslash escaping, and reports whether the line ends in
unescaped, unquoted whitespace. State: remaining characters, the currently
open quote character (if any), the word currently being built (if any), and
the words produced so far (reversed). Returns the word list and the
trailing-whitespace flag. -/
def shellwordsAux : List Char → Option Char → Option String → List String →
    List String × Bool
  | [], _, none, acc => (acc.reverse, true)
  | [], _, some w, acc => ((w :: acc).reverse, false)
  | c :: rest, some q, cur, acc =>
    if c = q then
      shellwordsAux rest none (some (cur.getD "")) acc
    else
      shellwordsAux rest (some q) (some ((cur.getD "").push c)) acc
  | c :: rest, none, cur, acc =>
    if c = ' ' ∨ c = '\t' then
      match cur with
      | some w => shellwordsAux rest none none (w :: acc)
      | none => shellwordsAux rest none none acc
    else if c = '\\' then
      match rest with
      | [] => ((((cur.getD "").push c) :: acc).reverse, false)
      | d :: rest2 => shellwordsAux rest2 none (some ((cur.getD "").push d)) acc
    else if c = '"' ∨ c = '\'' then
      shellwordsAux rest (some c) (some (cur.getD "")) acc
    else
      shellwordsAux rest none (some ((cur.getD "").push c)) acc

/-- Modelled from the spec: all shell words of a line together with the
trailing-whitespace flag; the empty line has no words and does not end in
whitespace. -/
def shellwords (s : String) : List String × Bool :=
  if s = "" then ([], false) else shellwordsAux s.data none none []

/-- Modelled from the spec: `Shellwords::command`, the first word of the
line (empty if there is none). -/
def commandOf (s : String) : String :=
  (shellwords s).1.headD ""

/-- Modelled from the spec: the argument words of the line, i.e. every word
after the command token (`Args::from(shellwords.args())`). -/
def argWords (s : String) : List String :=
  (shellwords s).1.tail

/-- Modelled from the spec: `Shellwords::ends_with_whitespace`. -/
def endsWithWhitespace (s : String) : Bool :=
  (shellwords s).2

/-- `str::starts_with`, over the character list (the library's
`String.startsWith` works on byte positions and does not reduce inside the
kernel). -/
def strStartsWith (s p : String) : Bool :=
  s.data.take p.data.length == p.data

/-- `str` prefix removal by character count, over the character list. -/
def strDrop (s : String) (n : Nat) : String :=
  String.mk (s.data.drop n)

/-- Modelled from Rust's `str::parse::<usize>` (standard library, not in
this repository): an optional leading `+` sign followed by one or more
ASCII digits, failing on overflow past the 64-bit usize maximum. -/
def parseUsize (s : String) : Option Nat :=
  let t := if strStartsWith s "+" then strDrop s 1 else s
  if t.data ≠ [] ∧ t.data.all Char.isDigit then
    let n := t.data.foldl (fun acc c => acc * 10 + (c.toNat - 48)) 0
    if n < 2 ^ 64 then some n else none
  else
    none

/-- `argument_number_of` (typed.rs lines 3944-3948): the completion slot
index for a line, `Args::from(shellwords.args()).len()` minus
`1 - usize::from(ends_with_whitespace)`, with saturating (here: natural)
subtraction. -/
def argument_number_of (input : String) : Nat :=
  (argWords input).length - (1 - (if endsWithWhitespace input then 1 else 0))

/-- Modelled from the spec: a word is flag-shaped when it begins with `-`
and is more than the bare dash. -/
def flagShaped (w : String) : Bool :=
  strStartsWith w "-" && w.data.length ≥ 2

/-- Modelled from the spec: match a flag-shaped word against the declared
flags, by long name for `--name` and by short alias for `-n`. -/
def lookupFlag (flags : List Flag) (w : String) : Option Flag :=
  if strStartsWith w "--" then flags.find? (fun f => f.long == strDrop w 2)
  else flags.find? (fun f => f.short == some (strDrop w 1))

/-- Modelled from the spec: structured-mode argument parsing. Scans the
words; a flag-shaped word must match a declared flag (else UnknownFlag), a
flag declaring a value placeholder consumes the following word as its value
(else FlagValueError), and every other word is appended to the positional
sequence in order. -/
def parseStructured (flags : List Flag) :
    List String → List String → List (String × Option String) → Except String Args
  | [], pos, fl => .ok ⟨pos.reverse, fl.reverse⟩
  | w :: rest, pos, fl =>
    if flagShaped w then
      match lookupFlag flags w with
      | none => .error ("unknown flag '" ++ w ++ "'")
      | some f =>
        match f.accepts with
        | none => parseStructured flags rest pos ((f.long, none) :: fl)
        | some _ =>
          match rest with
          | [] => .error ("flag '--" ++ f.long ++ "' is missing an argument")
          | v :: rest2 => parseStructured flags rest2 pos ((f.long, some v) :: fl)
    else
      parseStructured flags rest (w :: pos) fl

/-- Modelled from the spec: the raw rest of the line after the command
token and the whitespace following it (`Shellwords::args` as a plain
string), used by Literal mode to keep inter-word spacing verbatim. -/
def argsRaw (input : String) : String :=
  String.mk (((input.data.dropWhile (fun c => c == ' ' || c == '\t')).drop
      (commandOf input).data.length).dropWhile (fun c => c == ' ' || c == '\t'))

/-- Modelled from the spec: `Args::from_signature`. `Parameters` runs the
structured parser over the words; `Literal` takes the raw rest of the line
verbatim as the single positional argument (no flag recognition), or none
when it is empty. -/
def Args.from_signature (wordList : List String) (raw : String)
    (mode : ParseMode) (flags : List Flag) : Except String Args :=
  match mode with
  | .Parameters => parseStructured flags wordList [] []
  | .Literal => .ok ⟨if raw = "" then [] else [raw], []⟩

/-- `CommandSignature` from `typed.rs`: declared flags, positional arity
`(min, optional max)`, and the parse mode. The `accepts` hint and the
completer are omitted, no claim depends on them. -/
structure CommandSignature where
  flags : List Flag
  positionals : Nat × Option Nat
  parse_mode : ParseMode

/-- The editor state visible to this interpreter: the current document
selection and the saved pre-preview selection (`Editor::last_selection`),
the view's jump list, and the status-line error text (`Editor::set_error`).
Selections are abstracted to `Nat` identifiers; the interpreter never
inspects them, it only saves, restores and replaces them. -/
structure Editor where
  selection : Nat
  last_selection : Option Nat
  jumps : List Nat
  status : Option String
deriving DecidableEq, Repr

/-- `Editor::set_error`: record the error text in the status line; every
other component of the editor state is untouched. -/
def Editor.set_error (ed : Editor) (msg : String) : Editor :=
  { ed with status := some msg }

/-- A command handler: mutates the editor state and optionally reports an
error (`fn(&mut Context, Args, PromptEvent) -> anyhow::Result<()>`,
modelled as explicit state passing plus an error component). -/
abbrev Handler := Editor → Args → PromptEvent → Editor × Option String

/-- `TypableCommand` from `typed.rs`: canonical name, aliases, signature and
handler (the `fun` field; `run` here since `fun` is a Lean keyword). The
doc string is omitted, no claim depends on it. -/
structure TypableCommand where
  name : String
  aliases : List String
  signature : CommandSignature
  run : Handler

/-- `TypableCommand::ensure_signature` (typed.rs lines 38-62), translated
arm for arm: `true` means `Ok(())`. The source match has FOUR arms; the
third arm carries the same guard `min == max` as the second and is
therefore unreachable, so a signature with `min < max ` present falls
through to the final `(min, _)` arm, which checks only the lower bound. -/
def TypableCommand.ensure_signature (cmd : TypableCommand) (count : Nat) : Bool :=
  match cmd.signature.positionals with
  | (0, some 0) => count == 0
  | (min, some max) =>
    if min == max then decide (min ≤ count ∧ count ≤ max)
    else if min == max then decide (min ≤ count ∧ count ≤ max)
    else decide (min ≤ count)
  | (min, none) => decide (min ≤ count)

/-- `abort_goto_line_number_preview` (typed.rs lines 1844-1852): if a
pre-preview selection was saved, take it (clearing the saved slot) and
restore the document selection to it; otherwise do nothing.
(`ensure_cursor_in_view` only adjusts the view and is outside the model.) -/
def abort_goto_line_number_preview (ed : Editor) : Editor :=
  match ed.last_selection with
  | some last => { ed with selection := last, last_selection := none }
  | none => ed

/-- `update_goto_line_number_preview` (typed.rs lines 1854-1868): save the
current selection into `last_selection` unless one is already saved
(`get_or_insert_with`), parse the first argument as a line number
(propagating the parse error), and move the selection there.
`goto_line_without_jumplist` lives outside this repository snapshot and is
abstracted as the function `g` from the requested line and the current
selection to the new selection. -/
def update_goto_line_number_preview (g : Nat → Nat → Nat) (ed : Editor)
    (args : Args) : Editor × Option String :=
  let ed1 := { ed with last_selection := some (ed.last_selection.getD ed.selection) }
  match parseUsize (args.positionals.headD "") with
  | none => (ed1, some "invalid line number")
  | some line => ({ ed1 with selection := g line ed1.selection }, none)

/-- `goto_line_number` (typed.rs lines 1870-1903), arm for arm: Abort
restores the pre-preview selection; Validate requires a line number, moves
the cursor (covering direct invocation with no prior Update), then takes
the saved selection and pushes it on the jump list; Update with an empty
argument list restores the pre-preview selection exactly like Abort;
Update otherwise previews the move. -/
def goto_line_number (g : Nat → Nat → Nat) (ed : Editor) (args : Args)
    (event : PromptEvent) : Editor × Option String :=
  match event with
  | .Abort => (abort_goto_line_number_preview ed, none)
  | .Validate =>
    if args.positionals.isEmpty then (ed, some "Line number required")
    else
      match update_goto_line_number_preview g ed args with
      | (ed1, some e) => (ed1, some e)
      | (ed1, none) =>
        match ed1.last_selection with
        | none => (ed1, some "internal: last_selection unset")
        | some last =>
          ({ ed1 with last_selection := none, jumps := ed1.jumps ++ [last] }, none)
  | .Update =>
    if args.positionals.isEmpty then (abort_goto_line_number_preview ed, none)
    else update_goto_line_number_preview g ed args

/-- Run a handler and surface its error, if any, as status text
(`if let Err(err) = (command.fun)(cx, args, event) \x7b set_error \x7d`). -/
def run_handler (cmd : TypableCommand) (ed : Editor) (args : Args)
    (event : PromptEvent) : Editor :=
  match cmd.run ed args event with
  | (ed1, some err) => ed1.set_error err
  | (ed1, none) => ed1

/-- `TYPABLE_COMMAND_MAP.get`: look a command token up among the
descriptors by canonical name or alias. The source map is a `HashMap`
built by inserting every name and alias; with all keys unique (see the
registry theorems) its `get` agrees with this scan of the descriptor
list. -/
def registry_lookup (registry : List TypableCommand) (name : String) :
    Option TypableCommand :=
  registry.find? (fun cmd => cmd.name == name || cmd.aliases.contains name)

/-- The integer special case of the `command_mode` submission closure
(typed.rs lines 3891-3897): invoke `goto_line_number` with the command
token as the sole argument and surface any error as status text. -/
def dispatch_goto (g : Nat → Nat → Nat) (ed : Editor) (command : String)
    (event : PromptEvent) : Editor :=
  match goto_line_number g ed ⟨[command], []⟩ event with
  | (ed1, some err) => ed1.set_error err
  | (ed1, none) => ed1

/-- The registry branch of the `command_mode` submission closure (typed.rs
lines 3899-3925): resolve the command token; on success parse the
arguments against the signature, surfacing a parse failure as status text
(the source does so on every event phase); on Validate gate the handler
behind `ensure_signature` (the arity message text is abbreviated here);
run the handler otherwise. An unresolved token is an error on Validate
only. -/
def dispatch_registry (registry : List TypableCommand) (ed : Editor)
    (input : String) (event : PromptEvent) : Editor :=
  let command := commandOf input
  match registry_lookup registry command with
  | some cmd =>
    match Args.from_signature (argWords input) (argsRaw input)
        cmd.signature.parse_mode cmd.signature.flags with
    | .error err => ed.set_error err
    | .ok args =>
      if event = .Validate ∧ cmd.ensure_signature args.positionals.length = false then
        ed.set_error "invalid number of arguments"
      else run_handler cmd ed args event
  | none =>
    if event = .Validate then ed.set_error ("no such command: '" ++ command ++ "'")
    else ed

/-- The `command_mode` submission closure (typed.rs lines 3883-3926): an
empty command token does nothing; a command token that parses as a `usize`
is dispatched to the goto-line special case; everything else goes through
the registry. -/
def command_mode_execute (g : Nat → Nat → Nat) (registry : List TypableCommand)
    (ed : Editor) (input : String) (event : PromptEvent) : Editor :=
  let command := commandOf input
  if command = "" then ed
  else if (parseUsize command).isSome then dispatch_goto g ed command event
  else dispatch_registry registry ed input event

/-- `serde_json::Value` as far as `:toggle` distinguishes it; the `Object`
variant is omitted since the toggle array branch only distinguishes arrays
from everything else. -/
inductive JValue where
  | null
  | bool (b : Bool)
  | num (n : Int)
  | str (s : String)
  | arr (xs : List JValue)
deriving Repr

mutual

/-- Structural equality of JSON values (`PartialEq` on `serde_json::Value`). -/
def JValue.beq : JValue → JValue → Bool
  | .null, .null => true
  | .bool a, .bool b => a == b
  | .num a, .num b => a == b
  | .str a, .str b => a == b
  | .arr xs, .arr ys => JValue.beqList xs ys
  | _, _ => false

/-- Structural equality of JSON arrays (`PartialEq` on `Vec<Value>`). -/
def JValue.beqList : List JValue → List JValue → Bool
  | [], [] => true
  | x :: xs, y :: ys => JValue.beq x y && JValue.beqList xs ys
  | _, _ => false

end

mutual

theorem JValue.eq_of_beq : ∀ {a b : JValue}, JValue.beq a b = true → a = b
  | .null, .null, _ => rfl
  | .bool a, .bool b, h => by simpa [JValue.beq] using h
  | .num a, .num b, h => by simpa [JValue.beq] using h
  | .str a, .str b, h => by simpa [JValue.beq] using h
  | .arr xs, .arr ys, h => by
    have hl : xs = ys := JValue.eqList_of_beqList (by simpa [JValue.beq] using h)
    rw [hl]

theorem JValue.eqList_of_beqList : ∀ {xs ys : List JValue},
    JValue.beqList xs ys = true → xs = ys
  | [], [], _ => rfl
  | x :: xs, y :: ys, h => by
    have h1 : JValue.beq x y = true ∧ JValue.beqList xs ys = true := by
      simpa [JValue.beqList, Bool.and_eq_true] using h
    rw [JValue.eq_of_beq h1.1, JValue.eqList_of_beqList h1.2]

end

mutual

theorem JValue.beq_refl : ∀ (a : JValue), JValue.beq a a = true
  | .null => rfl
  | .bool a => by simp [JValue.beq]
  | .num a => by simp [JValue.beq]
  | .str a => by simp [JValue.beq]
  | .arr xs => by simpa [JValue.beq] using JValue.beqList_refl xs

theorem JValue.beqList_refl : ∀ (xs : List JValue), JValue.beqList xs xs = true
  | [] => rfl
  | x :: xs => by
    simp [JValue.beqList, Bool.and_eq_true]
    exact ⟨JValue.beq_refl x, JValue.beqList_refl xs⟩

end

instance : DecidableEq JValue := fun a b =>
  if h : JValue.beq a b = true then
    isTrue (JValue.eq_of_beq h)
  else
    isFalse (fun he => h (he ▸ JValue.beq_refl a))

/-- The `Value::Array` branch of `toggle_option` (typed.rs lines
2044-2068). The serde_json deserializer stream over the rest of the line
is abstracted as the list of its parse results (`stream`); `value` is the
current configuration value's array. The source draws the first two stream
items (`lists.next().transpose()?` twice, propagating a parse error),
bails if fewer than two are present, requires both to be arrays, and
returns the second when the first equals the current value and the first
otherwise. -/
def toggle_option_array (stream : List (Except String JValue))
    (value : List JValue) : Except String JValue :=
  match stream.head? with
  | none => .error "Bad arguments. For list configurations use: `:toggle key [...] [...]`"
  | some (.error e) => .error e
  | some (.ok first) =>
    match stream.tail.head? with
    | none => .error "Bad arguments. For list configurations use: `:toggle key [...] [...]`"
    | some (.error e) => .error e
    | some (.ok second) =>
      match first, second with
      | .arr list, .arr ys =>
        if list = value then .ok (.arr ys) else .ok (.arr list)
      | _, _ => .error "values must be lists"

/-- The `(name, aliases)` column of `TYPABLE_COMMAND_LIST` (typed.rs lines
2577-3827), entry for entry in source order. Signatures and handlers are
not needed for the registry-key claims. -/
def TYPABLE_COMMAND_LIST_names : List (String × List String) := [
  ("quit", ["q"]),
  ("echo", []),
  ("quit!", ["q!"]),
  ("open", ["o", "edit", "e"]),
  ("buffer-close", ["bc", "bclose"]),
  ("buffer-close!", ["bc!", "bclose!"]),
  ("buffer-close-others", ["bco", "bcloseother"]),
  ("buffer-close-others!", ["bco!", "bcloseother!"]),
  ("buffer-close-all", ["bca", "bcloseall"]),
  ("buffer-close-all!", ["bca!", "bcloseall!"]),
  ("buffer-next", ["bn", "bnext"]),
  ("buffer-previous", ["bp", "bprev"]),
  ("write", ["w"]),
  ("write!", ["w!"]),
  ("write-buffer-close", ["wbc"]),
  ("write-buffer-close!", ["wbc!"]),
  ("new", ["n"]),
  ("format", ["fmt"]),
  ("indent-style", []),
  ("line-ending", []),
  ("earlier", ["ear"]),
  ("later", ["lat"]),
  ("write-quit", ["wq", "x"]),
  ("write-quit!", ["wq!", "x!"]),
  ("write-all", ["wa"]),
  ("write-all!", ["wa!"]),
  ("write-quit-all", ["wqa", "xa"]),
  ("write-quit-all!", ["wqa!", "xa!"]),
  ("quit-all", ["qa"]),
  ("quit-all!", ["qa!"]),
  ("cquit", ["cq"]),
  ("cquit!", ["cq!"]),
  ("theme", []),
  ("yank-join", []),
  ("clipboard-yank", []),
  ("clipboard-yank-join", []),
  ("primary-clipboard-yank", []),
  ("primary-clipboard-yank-join", []),
  ("clipboard-paste-after", []),
  ("clipboard-paste-before", []),
  ("clipboard-paste-replace", []),
  ("primary-clipboard-paste-after", []),
  ("primary-clipboard-paste-before", []),
  ("primary-clipboard-paste-replace", []),
  ("show-clipboard-provider", []),
  ("change-current-directory", ["cd"]),
  ("show-directory", ["pwd"]),
  ("encoding", []),
  ("character-info", ["char"]),
  ("reload", ["rl"]),
  ("reload-all", ["rla"]),
  ("update", ["u"]),
  ("lsp-workspace-command", []),
  ("lsp-restart", []),
  ("lsp-stop", []),
  ("tree-sitter-scopes", []),
  ("tree-sitter-highlight-name", []),
  ("debug-start", ["dbg"]),
  ("debug-remote", ["dbg-tcp"]),
  ("debug-eval", []),
  ("vsplit", ["vs"]),
  ("vsplit-new", ["vnew"]),
  ("hsplit", ["hs", "sp"]),
  ("hsplit-new", ["hnew"]),
  ("tutor", []),
  ("goto", ["g"]),
  ("set-language", ["lang"]),
  ("set-option", ["set"]),
  ("toggle-option", ["toggle"]),
  ("get-option", ["get"]),
  ("sort", []),
  ("reflow", []),
  ("tree-sitter-subtree", ["ts-subtree"]),
  ("config-reload", []),
  ("config-open", []),
  ("config-open-workspace", []),
  ("log-open", []),
  ("insert-output", []),
  ("append-output", []),
  ("pipe", []),
  ("pipe-to", []),
  ("run-shell-command", ["sh"]),
  ("reset-diff-change", ["diffget", "diffg"]),
  ("clear-register", []),
  ("redraw", []),
  ("move", ["mv"]),
  ("yank-diagnostic", []),
  ("read", ["r"])]

/-- The keys a descriptor claims: its canonical name and its aliases. -/
def commandKeys (e : String × List String) : List String :=
  e.1 :: e.2

/-- The insertion sequence building `TYPABLE_COMMAND_MAP` (typed.rs lines
3829-3838): for every descriptor, `(name, descriptor)` followed by one
`(alias, descriptor)` pair per alias. -/
def registryPairs : List (String × (String × List String)) :=
  TYPABLE_COMMAND_LIST_names.flatMap (fun e => (commandKeys e).map (fun k => (k, e)))

/-- `TYPABLE_COMMAND_MAP.get`: since the built `HashMap` holds pairwise
distinct keys (see the registry theorems), its lookup agrees with the
first match in the insertion sequence. -/
def TYPABLE_COMMAND_MAP_find (k : String) : Option (String × List String) :=
  (registryPairs.find? (fun p => p.1 == k)).map (fun p => p.2)

/-- A handler with no effect: concrete instances only exercise the
interpreter, whose behavior never depends on the handler body. -/
def noopHandler : Handler := fun ed _ _ => (ed, none)

/-- The `write` command's registration data (typed.rs command list): alias
`w`, boolean flag `--no-format`, positionals `(0, Some(1))`, Parameters
mode. The handler's file-writing effect is outside the interpreter and is
the no-op here. -/
def writeCommand : TypableCommand :=
  { name := "write"
    aliases := ["w"]
    signature :=
      { flags := [{ long := "no-format", short := none, accepts := none }]
        positionals := (0, some 1)
        parse_mode := .Parameters }
    run := noopHandler }

/-- An editor at rest: selection 0, nothing saved, empty jump list, no
status text. -/
def initialEditor : Editor :=
  { selection := 0, last_selection := none, jumps := [], status := none }

/-- A goto-line-number prompt session: successive Update events, each
carrying the argument list typed so far, delivered to `goto_line_number`. -/
def run_goto_updates (g : Nat → Nat → Nat) : List Args → Editor → Editor
  | [], ed => ed
  | a :: rest, ed => run_goto_updates g rest (goto_line_number g ed a .Update).1

/-- The goto-session invariant: the saved pre-preview selection, when
present, is the session's original selection; when nothing is saved the
document selection still is the original one. -/
def sessionInv (orig : Nat) (ed : Editor) : Prop :=
  match ed.last_selection with
  | some s => s = orig
  | none => ed.selection = orig

/-- The claim's guard, following its words: a line consisting solely of a
decimal integer. -/
def solelyDecimalInteger (s : String) : Prop :=
  s ≠ "" ∧ s.data.all Char.isDigit = true

theorem sessionInv_update (g : Nat → Nat → Nat) (a : Args) {orig : Nat}
    {ed : Editor} (h : sessionInv orig ed) :
    sessionInv orig (goto_line_number g ed a .Update).1 := by
  cases hl : ed.last_selection with
  | some s =>
    have hs : s = orig := by simpa [sessionInv, hl] using h
    by_cases he : a.positionals.isEmpty
    · simp [goto_line_number, he, abort_goto_line_number_preview, hl, sessionInv, hs]
    · simp only [goto_line_number, he, if_false, update_goto_line_number_preview, hl]
      cases parseUsize (a.positionals.headD "") <;>
        simp [sessionInv, Option.getD, hs]
  | none =>
    have hs : ed.selection = orig := by simpa [sessionInv, hl] using h
    by_cases he : a.positionals.isEmpty
    · simp [goto_line_number, he, abort_goto_line_number_preview, hl, sessionInv, hs]
    · simp only [goto_line_number, he, if_false, update_goto_line_number_preview, hl]
      cases parseUsize (a.positionals.headD "") <;>
        simp [sessionInv, Option.getD, hs]

theorem sessionInv_run (g : Nat → Nat → Nat) (l : List Args) {orig : Nat} :
    ∀ ed : Editor, sessionInv orig ed → sessionInv orig (run_goto_updates g l ed) := by
  induction l with
  | nil => intro ed h; simpa [run_goto_updates] using h
  | cons a rest ih =>
    intro ed h
    simp only [run_goto_updates]
    exact ih _ (sessionInv_update g a h)

theorem sessionInv_abort {orig : Nat} {ed : Editor} (h : sessionInv orig ed) :
    (abort_goto_line_number_preview ed).selection = orig ∧
      (abort_goto_line_number_preview ed).last_selection = none := by
  cases hl : ed.last_selection with
  | some s =>
    have hs : s = orig := by simpa [sessionInv, hl] using h
    simp [abort_goto_line_number_preview, hl, hs]
  | none =>
    have hs : ed.selection = orig := by simpa [sessionInv, hl] using h
    simp [abort_goto_line_number_preview, hl, hs]

end Helix

open Helix

/-- C1. The claim states that for a signature `(min, Some(max))`,
`ensure_signature` succeeds iff `min ≤ count ≤ max`. The source's match arm
for `min < max` repeats the guard `min == max` of the arm before it and is
unreachable, so such signatures fall through to the unbounded `(min, _)`
arm: the `write` command, declared `(0, Some(1))`, passes arity validation
with 2 positional arguments, where the claim requires an error. -/
theorem C1_ensure_signature_ignores_max :
    writeCommand.signature.positionals = (0, some 1) ∧
      writeCommand.ensure_signature 2 = true ∧ ¬ (2 : Nat) ≤ 1 := by
  refine ⟨rfl, rfl, by decide⟩

/-- C2. The claim states that argument-parser failures are never surfaced
as errors while the prompt event is Update. In the source, the
`Args::from_signature` error branch of the `command_mode` closure calls
`set_error` unconditionally, with no `event == Validate` guard: submitting
the in-progress line `write --garbage` (unknown flag) with event Update
sets the error status. -/
theorem C2_parse_error_surfaced_on_update :
    initialEditor.status = none ∧
      (command_mode_execute (fun line _ => line) [writeCommand] initialEditor
          "write --garbage" .Update).status = some "unknown flag '--garbage'" := by
  exact ⟨rfl, by decide⟩

/-- C3 counterexample. The line `5 foo` does not consist solely of a
decimal integer, yet dispatch takes the go-to-line special case, because
the source only tests whether the FIRST token parses as a `usize`: with an
empty registry and event Validate, no unknown-command error is set (the
claim predicts registry resolution and hence an error), the selection is
moved by the goto handler and the jump list records the old selection. -/
theorem C3_first_token_decimal_triggers_goto :
    ¬ solelyDecimalInteger "5 foo" ∧
      (command_mode_execute (fun line _ => 10 * line) [] initialEditor
          "5 foo" .Validate).status = none ∧
      (command_mode_execute (fun line _ => 10 * line) [] initialEditor
          "5 foo" .Validate).selection = 50 ∧
      (command_mode_execute (fun line _ => 10 * line) [] initialEditor
          "5 foo" .Validate).jumps = [0] := by
  refine ⟨by unfold solelyDecimalInteger; decide, by decide, by decide, by decide⟩

/-- C3 amended. The go-to-line special case applies exactly to the lines
whose command token (first word) parses as a `usize`; on those lines the
goto handler is invoked with that token as its sole argument (registry
lookup is bypassed), and on every other line with a nonempty command token
dispatch resolves the token against the registry. -/
theorem C3_dispatch_on_first_token (g : Nat → Nat → Nat)
    (registry : List TypableCommand) (ed : Editor) (input : String)
    (event : PromptEvent) (h : commandOf input ≠ "") :
    ((parseUsize (commandOf input)).isSome →
        command_mode_execute g registry ed input event =
          (match goto_line_number g ed ⟨[commandOf input], []⟩ event with
           | (ed1, some err) => ed1.set_error err
           | (ed1, none) => ed1)) ∧
      (parseUsize (commandOf input) = none →
        command_mode_execute g registry ed input event =
          dispatch_registry registry ed input event) := by
  constructor
  · intro hs
    simp [command_mode_execute, h, hs, dispatch_goto]
  · intro hn
    simp [command_mode_execute, h, hn]

/-- C3 amended, witness: the line `17` goes to the goto handler. -/
theorem C3_dispatch_on_first_token_witness :
    command_mode_execute (fun line _ => line) [] initialEditor "17" .Update =
      (match goto_line_number (fun line _ => line) initialEditor
          ⟨[commandOf "17"], []⟩ .Update with
       | (ed1, some err) => ed1.set_error err
       | (ed1, none) => ed1) :=
  (C3_dispatch_on_first_token (fun line _ => line) [] initialEditor "17"
      .Update (by decide)).1 (by decide)

/-- C4. The completion slot index (`argument_number_of`) equals the number
of parsed argument words when the line ends in whitespace and that number
minus one (saturating at zero) otherwise; it never decreases when a
complete word is appended (the parsed-word count grows by one) nor when a
trailing space is appended (the count is unchanged and the line now ends
in whitespace); and the literal cases of the source's
`test_argument_number_of` hold. -/
theorem C4_argument_number_of_slots :
    (∀ input : String,
        argument_number_of input =
          if endsWithWhitespace input then (argWords input).length
          else (argWords input).length - 1) ∧
    (∀ s t : String, (argWords t).length = (argWords s).length + 1 →
        argument_number_of s ≤ argument_number_of t) ∧
    (∀ s t : String, (argWords t).length = (argWords s).length →
        endsWithWhitespace t = true → argument_number_of s ≤ argument_number_of t) ∧
    argument_number_of "set-option" = 0 ∧
    argument_number_of "set-option " = 0 ∧
    argument_number_of "set-option asdf" = 0 ∧
    argument_number_of "set-option asdf " = 1 ∧
    argument_number_of "set-option asdf xyz" = 1 ∧
    argument_number_of "set-option asdf xyz abc " = 3 := by
  have hf : ∀ input : String,
      argument_number_of input =
        if endsWithWhitespace input then (argWords input).length
        else (argWords input).length - 1 := by
    intro input
    unfold argument_number_of
    cases h : endsWithWhitespace input <;> simp [h]
  refine ⟨hf, ?_, ?_, by decide, by decide, by decide, by decide, by decide, by decide⟩
  · intro s t h
    rw [hf s, hf t, h]
    cases h1 : endsWithWhitespace s <;> cases h2 : endsWithWhitespace t <;>
      simp <;> omega
  · intro s t h he
    rw [hf s, hf t, h, he]
    cases h1 : endsWithWhitespace s <;> simp

/-- C4, witness: appending the complete word `xyz` and then a trailing
space never decreases the slot index. -/
theorem C4_argument_number_of_slots_witness :
    argument_number_of "set-option asdf" ≤ argument_number_of "set-option asdf xyz" ∧
      argument_number_of "set-option asdf xyz" ≤ argument_number_of "set-option asdf xyz " :=
  ⟨C4_argument_number_of_slots.2.1 "set-option asdf" "set-option asdf xyz" (by decide),
   C4_argument_number_of_slots.2.2.1 "set-option asdf xyz" "set-option asdf xyz "
     (by decide) (by decide)⟩

/-- C5. For a resolved command whose arguments parse, arity validation
gates the handler exactly when the prompt event is Validate: on any other
event (Update, Abort) the handler runs with no arity check regardless of
the positional count, and on Validate the handler runs only when
`ensure_signature` accepts the count, the error status being set instead
when it does not. -/
theorem C5_arity_checked_only_on_validate (g : Nat → Nat → Nat)
    (registry : List TypableCommand) (ed : Editor) (input : String)
    (event : PromptEvent) (cmd : TypableCommand) (args : Args)
    (hc : commandOf input ≠ "")
    (hn : parseUsize (commandOf input) = none)
    (hl : registry_lookup registry (commandOf input) = some cmd)
    (hp : Args.from_signature (argWords input) (argsRaw input)
        cmd.signature.parse_mode cmd.signature.flags = .ok args) :
    (event ≠ .Validate →
        command_mode_execute g registry ed input event =
          run_handler cmd ed args event) ∧
    (event = .Validate →
        command_mode_execute g registry ed input event =
          if cmd.ensure_signature args.positionals.length then
            run_handler cmd ed args event
          else ed.set_error "invalid number of arguments") := by
  have hbase : command_mode_execute g registry ed input event =
      dispatch_registry registry ed input event := by
    simp [command_mode_execute, hc, hn]
  constructor
  · intro hne
    rw [hbase]
    simp [dispatch_registry, hl, hp, hne]
  · intro he
    subst he
    rw [hbase]
    simp only [dispatch_registry, hl, hp]
    cases hs : cmd.ensure_signature args.positionals.length <;> simp [hs]

/-- C5, witness: submitting `write` with event Update invokes the handler
with zero positionals and no arity check. -/
theorem C5_arity_checked_only_on_validate_witness :
    command_mode_execute (fun line _ => line) [writeCommand] initialEditor
        "write" .Update =
      run_handler writeCommand initialEditor ⟨[], []⟩ .Update :=
  (C5_arity_checked_only_on_validate (fun line _ => line) [writeCommand]
      initialEditor "write" .Update writeCommand ⟨[], []⟩ (by decide) (by decide)
      rfl rfl).1 (by decide)

/-- C6. A nonempty command token that is neither an integer nor a
registered name or alias sets the unknown-command error status exactly
when the event is Validate, every other component of the editor state
being unchanged; on any other event (Update, Abort) the editor state is
returned untouched. -/
theorem C6_unknown_command_error_only_on_validate (g : Nat → Nat → Nat)
    (registry : List TypableCommand) (ed : Editor) (input : String)
    (event : PromptEvent)
    (hc : commandOf input ≠ "")
    (hn : parseUsize (commandOf input) = none)
    (hl : registry_lookup registry (commandOf input) = none) :
    (command_mode_execute g registry ed input .Validate =
        ed.set_error ("no such command: '" ++ commandOf input ++ "'")) ∧
    ((command_mode_execute g registry ed input .Validate).selection = ed.selection ∧
      (command_mode_execute g registry ed input .Validate).last_selection =
        ed.last_selection ∧
      (command_mode_execute g registry ed input .Validate).jumps = ed.jumps) ∧
    (event ≠ .Validate → command_mode_execute g registry ed input event = ed) := by
  have hv : command_mode_execute g registry ed input .Validate =
      ed.set_error ("no such command: '" ++ commandOf input ++ "'") := by
    simp [command_mode_execute, hc, hn, dispatch_registry, hl]
  refine ⟨hv, ?_, ?_⟩
  · rw [hv]
    simp [Editor.set_error]
  · intro hne
    simp [command_mode_execute, hc, hn, dispatch_registry, hl, hne]

/-- C6, witness: submitting `nosuchcommand` with event Update leaves the
editor untouched. -/
theorem C6_unknown_command_error_only_on_validate_witness :
    command_mode_execute (fun line _ => line) [] initialEditor "nosuchcommand"
        .Update = initialEditor :=
  (C6_unknown_command_error_only_on_validate (fun line _ => line) [] initialEditor
      "nosuchcommand" .Update (by decide) (by decide) rfl).2.2 (by decide)

/-- C7. For a goto-line-number session opened with no saved selection,
after any run of Update events, delivering Abort restores the document
selection to exactly the selection the session started with (the one saved
before the first preview), clears the saved selection, and reports no
error; and when no preview has occurred (nothing saved), Abort changes
nothing at all. -/
theorem C7_abort_restores_preview (g : Nat → Nat → Nat) (updates : List Args)
    (ed : Editor) (a : Args) (h : ed.last_selection = none) :
    ((goto_line_number g (run_goto_updates g updates ed) a .Abort).1.selection =
        ed.selection ∧
      (goto_line_number g (run_goto_updates g updates ed) a .Abort).1.last_selection =
        none ∧
      (goto_line_number g (run_goto_updates g updates ed) a .Abort).2 = none) ∧
    goto_line_number g ed a .Abort = (ed, none) := by
  have h0 : sessionInv ed.selection ed := by simp [sessionInv, h]
  have hr := sessionInv_run g updates ed h0
  have ha := sessionInv_abort hr
  refine ⟨⟨?_, ?_, ?_⟩, ?_⟩
  · simpa [goto_line_number] using ha.1
  · simpa [goto_line_number] using ha.2
  · simp [goto_line_number]
  · simp [goto_line_number, abort_goto_line_number_preview, h]

/-- C7, witness: previewing line 3 from selection 7 and aborting restores
selection 7. -/
theorem C7_abort_restores_preview_witness :
    ((goto_line_number (fun line _ => line)
        (run_goto_updates (fun line _ => line) [⟨["3"], []⟩] ⟨7, none, [], none⟩)
        ⟨[], []⟩ .Abort).1.selection = 7 ∧
      (goto_line_number (fun line _ => line)
        (run_goto_updates (fun line _ => line) [⟨["3"], []⟩] ⟨7, none, [], none⟩)
        ⟨[], []⟩ .Abort).1.last_selection = none ∧
      (goto_line_number (fun line _ => line)
        (run_goto_updates (fun line _ => line) [⟨["3"], []⟩] ⟨7, none, [], none⟩)
        ⟨[], []⟩ .Abort).2 = none) ∧
    goto_line_number (fun line _ => line) ⟨7, none, [], none⟩ ⟨[], []⟩ .Abort =
      (⟨7, none, [], none⟩, none) :=
  C7_abort_restores_preview (fun line _ => line) [⟨["3"], []⟩]
    ⟨7, none, [], none⟩ ⟨[], []⟩ rfl

/-- C10. A goto-line-number Update event with an empty argument list is
handled by exactly the same restoration as Abort (`goto_line_number`
returns the same result for both), and that restoration puts the saved
pre-preview selection back as the document selection and clears the saved
slot whenever one was saved. -/
theorem C10_update_empty_args_aborts_preview (g : Nat → Nat → Nat)
    (ed : Editor) (s : Nat) :
    goto_line_number g ed ⟨[], []⟩ .Update =
      (abort_goto_line_number_preview ed, none) ∧
    goto_line_number g ed ⟨[], []⟩ .Update = goto_line_number g ed ⟨[], []⟩ .Abort ∧
    (ed.last_selection = some s →
      (abort_goto_line_number_preview ed).selection = s ∧
        (abort_goto_line_number_preview ed).last_selection = none) := by
  refine ⟨by simp [goto_line_number], by simp [goto_line_number], ?_⟩
  intro hl
  simp [abort_goto_line_number_preview, hl]

/-- C10, witness: backspacing to an empty argument restores saved
selection 2 over current selection 5. -/
theorem C10_update_empty_args_aborts_preview_witness :
    goto_line_number (fun line _ => line) ⟨5, some 2, [], none⟩ ⟨[], []⟩ .Update =
      (abort_goto_line_number_preview ⟨5, some 2, [], none⟩, none) ∧
    goto_line_number (fun line _ => line) ⟨5, some 2, [], none⟩ ⟨[], []⟩ .Update =
      goto_line_number (fun line _ => line) ⟨5, some 2, [], none⟩ ⟨[], []⟩ .Abort ∧
    ((⟨5, some 2, [], none⟩ : Editor).last_selection = some 2 →
      (abort_goto_line_number_preview ⟨5, some 2, [], none⟩).selection = 2 ∧
        (abort_goto_line_number_preview ⟨5, some 2, [], none⟩).last_selection = none) :=
  C10_update_empty_args_aborts_preview (fun line _ => line) ⟨5, some 2, [], none⟩ 2

namespace Helix

theorem find?_eq_some_key {α : Type} {pairs : List (String × α)} {k : String}
    {p : String × α} (h : pairs.find? (fun q => q.1 == k) = some p) :
    p ∈ pairs ∧ p.1 = k := by
  refine ⟨List.mem_of_find?_eq_some h, ?_⟩
  have := List.find?_some h
  simpa using this

theorem find?_isSome_of_mem {α : Type} {pairs : List (String × α)} {k : String}
    {p : String × α} (hp : p ∈ pairs) (hk : p.1 = k) :
    (pairs.find? (fun q => q.1 == k)).isSome := by
  rw [List.find?_isSome]
  exact ⟨p, hp, by simp [hk]⟩

theorem mem_registryPairs {e : String × List String} {k : String}
    (he : e ∈ TYPABLE_COMMAND_LIST_names) (hk : k ∈ commandKeys e) :
    (k, e) ∈ registryPairs := by
  unfold registryPairs
  rw [List.mem_flatMap]
  exact ⟨e, he, by rw [List.mem_map]; exact ⟨k, hk, rfl⟩⟩

theorem registryPairs_sound {p : String × (String × List String)}
    (hp : p ∈ registryPairs) :
    p.2 ∈ TYPABLE_COMMAND_LIST_names ∧ p.1 ∈ commandKeys p.2 := by
  unfold registryPairs at hp
  rw [List.mem_flatMap] at hp
  obtain ⟨e, he, hm⟩ := hp
  rw [List.mem_map] at hm
  obtain ⟨k, hk, rfl⟩ := hm
  exact ⟨he, hk⟩

end Helix

set_option maxRecDepth 100000 in
set_option maxHeartbeats 4000000 in
/-- C8. The registry insertion sequence (every descriptor's canonical name
followed by its aliases) has pairwise distinct keys — no two descriptors
claim the same name or alias and no descriptor repeats one — and for every
descriptor in the command list, looking any of its keys up in the built
map yields a descriptor whose own name/alias list contains that key. -/
theorem C8_registry_names_aliases_unique :
    (registryPairs.map (fun p => p.1)).Nodup ∧
    ∀ e ∈ TYPABLE_COMMAND_LIST_names, ∀ k ∈ commandKeys e,
      ∃ e2, TYPABLE_COMMAND_MAP_find k = some e2 ∧ k ∈ commandKeys e2 := by
  constructor
  · decide
  · intro e he k hk
    have hmem := mem_registryPairs he hk
    have hsome := find?_isSome_of_mem hmem rfl
    obtain ⟨p, hp⟩ := Option.isSome_iff_exists.mp hsome
    obtain ⟨hpm, hpk⟩ := find?_eq_some_key hp
    obtain ⟨hel, hkey⟩ := registryPairs_sound hpm
    have hpk2 : p.1 = k := hpk
    exact ⟨p.2, by simp [TYPABLE_COMMAND_MAP_find, hp], hpk2 ▸ hkey⟩

/-- C8, witness: the alias `q` of `quit` resolves to a descriptor that
indeed lists `q`. -/
theorem C8_registry_names_aliases_unique_witness :
    ∃ e2, TYPABLE_COMMAND_MAP_find "q" = some e2 ∧ "q" ∈ commandKeys e2 :=
  C8_registry_names_aliases_unique.2 ("quit", ["q"]) (by decide) "q" (by decide)

/-- C9. The `:toggle` array branch succeeds only when the rest of the line
parses as at least two JSON values with both of the first two being
arrays; and in that case the result is the second array if the current
value equals the first array (structural equality) and the first array
otherwise — a swap between exactly the two candidate lists, never an
n-way cycle. -/
theorem C9_toggle_array_swaps_two_lists (stream : List (Except String JValue))
    (value l1 l2 : List JValue) (rest : List (Except String JValue)) :
    ((∃ v, toggle_option_array stream value = .ok v) →
        ∃ a1 a2 r, stream = .ok (.arr a1) :: .ok (.arr a2) :: r) ∧
    (stream = .ok (.arr l1) :: .ok (.arr l2) :: rest →
        toggle_option_array stream value =
          if l1 = value then .ok (.arr l2) else .ok (.arr l1)) := by
  constructor
  · rintro ⟨v, hv⟩
    rcases stream with _ | ⟨x, rest1⟩
    · simp [toggle_option_array] at hv
    rcases x with e | x
    · simp [toggle_option_array] at hv
    rcases rest1 with _ | ⟨y, r⟩
    · simp [toggle_option_array] at hv
    rcases y with e | y
    · simp [toggle_option_array] at hv
    cases x with
    | null => simp [toggle_option_array] at hv
    | bool b => simp [toggle_option_array] at hv
    | num n => simp [toggle_option_array] at hv
    | str s2 => simp [toggle_option_array] at hv
    | arr a1 =>
      cases y with
      | null => simp [toggle_option_array] at hv
      | bool b => simp [toggle_option_array] at hv
      | num n => simp [toggle_option_array] at hv
      | str s2 => simp [toggle_option_array] at hv
      | arr a2 => exact ⟨a1, a2, r, rfl⟩
  · rintro rfl
    simp [toggle_option_array]

/-- C9, witness: with current value `[]` equal to the first candidate
`[]`, the toggle yields the second candidate `[null]`. -/
theorem C9_toggle_array_swaps_two_lists_witness :
    toggle_option_array
        [Except.ok (JValue.arr []), Except.ok (JValue.arr [JValue.null])] [] =
      Except.ok (JValue.arr [JValue.null]) := by
  have h := (C9_toggle_array_swaps_two_lists
      [Except.ok (JValue.arr []), Except.ok (JValue.arr [JValue.null])]
      [] [] [JValue.null] []).2 rfl
  simpa using h
